import Mathlib

/-!
Verification development for the Formulation-Optimization-Agent repository.

The program under study is `src/app.py`, a single-file Streamlit application.
The parts embedded here are the ones with real control flow:

* the Markdown-table parser of the generated formulation text
  (`src/app.py`, lines 144 to 153),
* the PubChem verification helper `verify_ingredient_pubchem`
  (lines 35 to 44), whose results are memoized by `st.cache_data`
  keyed on the raw argument string,
* the per-ingredient verification loop that assembles the report rows
  (lines 155 to 163),
* the secondary-model analyzer `analyze_complex_ingredient`
  (lines 46 to 51), whose body is elided in this version of the file
  and is therefore modelled from the specification.

Python string primitives (`strip`, `split`, `replace`, `lower`, `in`,
`startswith`, `endswith`) are embedded as executable functions on the
character list underlying a Lean `String`, so that every definition
evaluates by kernel reduction on concrete inputs.

External collaborators are passed in explicitly: the compound database
is a function returning `Except Unit (List Compound)` (an `Except.error`
models a raised exception), and the memoization cache is an association
list threaded through the computation together with a log of the
external queries actually issued.
-/

namespace FormulationAgent

/-- Embedding of Python `str.strip()` on the underlying character list. -/
def stripChars (cs : List Char) : List Char :=
  ((cs.dropWhile Char.isWhitespace).reverse.dropWhile Char.isWhitespace).reverse

/-- Embedding of Python `str.strip()`. -/
def pyStrip (s : String) : String :=
  String.mk (stripChars s.data)

/-- Embedding of Python `str.split(sep)` for a one-character separator:
splits on every occurrence and keeps empty segments. -/
def splitChars (sep : Char) : List Char → List (List Char)
  | [] => [[]]
  | c :: cs =>
    let r := splitChars sep cs
    if c = sep then [] :: r
    else
      match r with
      | [] => [[c]]
      | h :: t => (c :: h) :: t

/-- Embedding of Python `str.split(sep)` for a one-character separator. -/
def pySplit (sep : Char) (s : String) : List String :=
  (splitChars sep s.data).map String.mk

/-- Embedding of Python `str.lower()` (ASCII letters, which is all the
parser compares). -/
def pyLower (s : String) : String :=
  String.mk (s.data.map Char.toLower)

/-- `charsStart pat cs` is true when `pat` is an initial segment of `cs`. -/
def charsStart : List Char → List Char → Bool
  | [], _ => true
  | _ :: _, [] => false
  | p :: ps, c :: cs => p = c && charsStart ps cs

/-- `charsHave pat cs` is true when `pat` occurs contiguously in `cs`,
embedding the Python `in` operator on strings. -/
def charsHave (pat : List Char) : List Char → Bool
  | [] => charsStart pat []
  | c :: cs => charsStart pat (c :: cs) || charsHave pat cs

/-- Embedding of Python `s.startswith(pat)`. -/
def strStarts (s pat : String) : Bool :=
  charsStart pat.data s.data

/-- Embedding of Python `s.endswith(pat)`. -/
def strEnds (s pat : String) : Bool :=
  charsStart pat.data.reverse s.data.reverse

/-- Embedding of Python `pat in s`. -/
def strHas (s pat : String) : Bool :=
  charsHave pat.data s.data

/-- `ingredient_name.strip().replace(chr(42), empty)` from
`verify_ingredient_pubchem` (src/app.py line 39): trim whitespace, then
remove every asterisk. -/
def normalize (ingredient_name : String) : String :=
  String.mk ((stripChars ingredient_name.data).filter (fun c => c != '*'))

/-- A compound returned by the external database collaborator
(`pubchempy` compound), exposing its molecular formula. -/
structure Compound where
  molecular_formula : String
deriving DecidableEq

/-- The external compound database collaborator
(`pcp.get_compounds(name, whatever)`): given a (cleaned) name it either
returns a list of compounds or raises, modelled as `Except.error ()`. -/
abbrev Db : Type :=
  String → Except Unit (List Compound)

/-- The `st.cache_data` memo for `verify_ingredient_pubchem`, an
association list from the RAW argument string to the returned
(status, detail) pair. -/
abbrev Cache : Type :=
  List (String × (String × String))

/-- First-match association-list lookup, the memo-cache access. -/
def cacheLookup (k : String) : Cache → Option (String × String)
  | [] => none
  | (k', v) :: rest => if k = k' then some v else cacheLookup k rest

/-- Body of `verify_ingredient_pubchem` (src/app.py lines 38 to 44), run
on a cache miss.  Returns the (status, detail) pair together with the
list of names actually sent to the external database (empty when the
cleaned name is empty, since the lookup is skipped).  The `try` block
maps a raised exception from the database call to ("API Error", "-"). -/
def verify_uncached (db : Db) (ingredient_name : String) :
    (String × String) × List String :=
  let clean_name := normalize ingredient_name
  if clean_name = "" then (("Empty", "-"), [])
  else
    match db clean_name with
    | .error _ => (("API Error", "-"), [clean_name])
    | .ok [] => (("Not Found", "-"), [clean_name])
    | .ok (c :: _) => (("Verified", c.molecular_formula), [clean_name])

/-- `verify_ingredient_pubchem` as invoked through `st.cache_data`: the
memo key is the raw `ingredient_name` argument.  On a hit the cached
pair is returned with no external query; on a miss the body runs and
its result is stored under the raw name.  The third component is the
list of external-database queries issued by this call. -/
def verify_ingredient_pubchem (db : Db) (cache : Cache)
    (ingredient_name : String) :
    (String × String) × Cache × List String :=
  match cacheLookup ingredient_name cache with
  | some r => (r, cache, [])
  | none =>
    let rq := verify_uncached db ingredient_name
    (rq.1, (ingredient_name, rq.1) :: cache, rq.2)

/-- One line of the table parser (src/app.py lines 146 to 153): a line
qualifies when its stripped form starts and ends with a pipe, its
pipe-split has at least 5 stripped columns, and the column at index 2
neither contains "ingredient name" case-insensitively nor contains
"---"; the candidate is that index-2 column. -/
def rowCandidate (line : String) : Option String :=
  if strStarts (pyStrip line) "|" && strEnds (pyStrip line) "|" then
    let columns := (pySplit '|' line).map pyStrip
    if 5 ≤ columns.length then
      let ingredient_name := columns.getD 2 ""
      if !(strHas (pyLower ingredient_name) "ingredient name")
          && !(strHas ingredient_name "---") then
        some ingredient_name
      else none
    else none
  else none

/-- The parser loop (src/app.py lines 140 to 153): split the generated
text into lines and append the candidate of every qualifying table row,
in order. -/
def extract (text : String) : List String :=
  (pySplit '\n' text).foldl
    (fun acc line =>
      match rowCandidate line with
      | some n => acc ++ [n]
      | none => acc)
    []

/-- A row of the verification report (src/app.py line 163):
ingredient as extracted, status label, and the detail or formula. -/
structure ReportRow where
  ingredient : String
  status : String
  detail : String
deriving DecidableEq

/-- State threaded through the verification loop: the memo cache, the
log of external-database queries issued, and the log of names passed to
the secondary-model analyzer.  The loop body (src/app.py lines 158 to
163) contains no call to `analyze_complex_ingredient`, so nothing is
ever appended to `escalations`. -/
structure PipeState where
  cache : Cache
  dbCalls : List String
  escalations : List String
deriving DecidableEq

/-- One iteration of the verification loop (src/app.py lines 158 to
163): verify the ingredient; when the status is "Not Found" replace the
status and detail with the literal pair ("Complex/Blend*",
"See Chemist\x27s Note"); emit the row. -/
def processOne (db : Db) (st : PipeState) (ingredient : String) :
    ReportRow × PipeState :=
  let v := verify_ingredient_pubchem db st.cache ingredient
  let status := if v.1.1 = "Not Found" then "Complex/Blend*" else v.1.1
  let formula := if v.1.1 = "Not Found" then "See Chemist\x27s Note" else v.1.2
  (⟨ingredient, status, formula⟩, ⟨v.2.1, st.dbCalls ++ v.2.2, st.escalations⟩)

/-- The verification loop over the extracted ingredient list, producing
the report rows in order and the final state. -/
def assembleAux (db : Db) (st : PipeState) :
    List String → List ReportRow × PipeState
  | [] => ([], st)
  | ing :: rest =>
    let p := processOne db st ing
    let r := assembleAux db p.2 rest
    (p.1 :: r.1, r.2)

/-- The state at process start: empty memo cache, no queries, no
escalations. -/
def startState : PipeState :=
  ⟨[], [], []⟩

/-- A database collaborator that always returns an empty result list. -/
def dbEmptyRes : Db :=
  fun _ => .ok []

/-- A database collaborator that always returns one match with
molecular formula H2O. -/
def dbWater : Db :=
  fun _ => .ok [⟨"H2O"⟩]

/-- A database collaborator that always raises. -/
def dbDown : Db :=
  fun _ => .error ()

/-- Modelled from the spec: the character class of the list-item
fallback strategy (spec section 4.1, strategy 2) — letters, spaces,
parentheses, and hyphens.  This strategy is absent from src/app.py,
whose parser (lines 140 to 153) only implements the table-row strategy;
the definition follows the words of the spec so the two can be
compared. -/
def isNameChar (c : Char) : Bool :=
  c.isAlpha || c == ' ' || c == '(' || c == ')' || c == '-'

/-- Modelled from the spec: one line of the list-item fallback strategy
(spec section 4.1, strategy 2), absent from src/app.py.  A line with a
leading numbered (digits then a dot) or bulleted (hyphen) marker yields
the following name, captured up to the first disallowed character and
trimmed; an empty capture yields nothing. -/
def listItemName (line : String) : Option String :=
  let t := stripChars line.data
  let body : Option (List Char) :=
    match t with
    | '-' :: rest => some rest
    | c :: _ =>
      if c.isDigit then
        match t.dropWhile Char.isDigit with
        | '.' :: rest => some rest
        | _ => none
      else none
    | [] => none
  match body with
  | some rest =>
    let nm := String.mk (stripChars (rest.takeWhile isNameChar))
    if nm = "" then none else some nm
  | none => none

/-- Modelled from the spec: the list-item fallback strategy over a whole
text (spec section 4.1, strategy 2), absent from src/app.py. -/
def extractListSpec (text : String) : List String :=
  (pySplit '\n' text).filterMap listItemName

/-- Modelled from the spec: the table-row acceptance rule as the spec
words it (section 4.1, strategy 1, and claim C4) — at least 3 columns,
ingredient at index 2, rejected when it contains "ingredient name"
case-insensitively, equals "Phase", or is a non-empty run of hyphens.
Stated for comparison with `rowCandidate`, the rule src/app.py actually
implements. -/
def rowCandidateSpec (line : String) : Option String :=
  if strStarts (pyStrip line) "|" && strEnds (pyStrip line) "|" then
    let columns := (pySplit '|' line).map pyStrip
    if 3 ≤ columns.length then
      let c2 := columns.getD 2 ""
      if strHas (pyLower c2) "ingredient name" then none
      else if c2 = "Phase" then none
      else if c2 ≠ "" && c2.data.all (fun c => c == '-') then none
      else some c2
    else none
  else none

/-- Modelled from the spec: the table strategy over a whole text, using
the acceptance rule as the spec words it. -/
def extractTableSpec (text : String) : List String :=
  (pySplit '\n' text).filterMap rowCandidateSpec

/-- The result of the secondary-model decomposition: a free-text
rationale and the (component name, verification result) pairs. -/
structure ComplexAnalysis where
  rationale : String
  components : List (String × (String × String))
deriving DecidableEq

/-- Modelled from the spec: the body of `analyze_complex_ingredient` is
elided in src/app.py (lines 46 to 51 hold only a placeholder prompt and
`pass`); spec section 4.4 defines it.  The secondary-model response must
contain a line beginning with "ANALYSIS:" and a line beginning with
"COMPONENTS:"; when both are present the components are split on
commas, trimmed, and verified through the supplied verifier; when
either line is absent the result is the degenerate analysis with
rationale "Analysis Failed" and no components.  The function is total:
it never raises. -/
def analyze_complex_ingredient (verify : String → String × String)
    (response : String) : ComplexAnalysis :=
  let lines := pySplit '\n' response
  match lines.find? (fun l => strStarts l "ANALYSIS:"),
      lines.find? (fun l => strStarts l "COMPONENTS:") with
  | some aLine, some cLine =>
    let analysis := pyStrip (String.mk (aLine.data.drop "ANALYSIS:".data.length))
    let comps :=
      (pySplit ',' (String.mk (cLine.data.drop "COMPONENTS:".data.length))).map pyStrip
    ⟨analysis, comps.map (fun c => (c, verify c))⟩
  | _, _ => ⟨"Analysis Failed", []⟩

/-- The statuses a LookupResult (the pair returned by
`verify_ingredient_pubchem`) can carry. -/
def lookupStatuses : List String :=
  ["Verified", "Not Found", "API Error", "Empty"]

/-- The statuses an assembled report row can carry: the loop rewrites
"Not Found" to "Complex/Blend*" before emitting the row. -/
def rowStatuses : List String :=
  ["Verified", "Complex/Blend*", "API Error", "Empty"]

/-- The closed status set claimed by the spec (section 3). -/
def specStatuses : List String :=
  ["Verified", "Not Found", "Complex", "Analysis Failed", "API Error", "Empty"]

/-- A cache is well formed when every stored status is one a lookup can
produce.  The empty cache at process start is trivially well formed,
and `verify_ingredient_pubchem` preserves the property. -/
abbrev CacheOk (c : Cache) : Prop :=
  ∀ p ∈ c, p.2.1 ∈ lookupStatuses

theorem cacheLookup_cons_self (k : String) (v : String × String) (rest : Cache) :
    cacheLookup k ((k, v) :: rest) = some v := by
  simp [cacheLookup]

theorem cacheLookup_mem :
    ∀ {c : Cache} {k : String} {v : String × String},
      cacheLookup k c = some v → (k, v) ∈ c := by
  intro c
  induction c with
  | nil => intro k v h; simp [cacheLookup] at h
  | cons p rest ih =>
    intro k v h
    obtain ⟨k', v'⟩ := p
    by_cases hk : k = k'
    · subst hk
      simp [cacheLookup] at h
      simp [h]
    · simp [cacheLookup, hk] at h
      exact List.mem_cons_of_mem _ (ih h)

theorem verify_uncached_status_mem (db : Db) (name : String) :
    (verify_uncached db name).1.1 ∈ lookupStatuses := by
  unfold verify_uncached
  by_cases h : normalize name = ""
  · simp [h, lookupStatuses]
  · simp only [h, if_false, if_neg h]
    cases hdb : db (normalize name) with
    | error e => simp [lookupStatuses]
    | ok l => cases l <;> simp [lookupStatuses]

theorem verify_status_mem (db : Db) (cache : Cache) (name : String)
    (hc : CacheOk cache) :
    (verify_ingredient_pubchem db cache name).1.1 ∈ lookupStatuses := by
  unfold verify_ingredient_pubchem
  cases h : cacheLookup name cache with
  | some r => exact hc (name, r) (cacheLookup_mem h)
  | none => exact verify_uncached_status_mem db name

theorem verify_cacheOk (db : Db) (cache : Cache) (name : String)
    (hc : CacheOk cache) :
    CacheOk (verify_ingredient_pubchem db cache name).2.1 := by
  unfold verify_ingredient_pubchem
  cases h : cacheLookup name cache with
  | some r => exact hc
  | none =>
    intro p hp
    rcases List.mem_cons.mp hp with h1 | h2
    · subst h1; exact verify_uncached_status_mem db name
    · exact hc _ h2

theorem processOne_escalations (db : Db) (st : PipeState) (ing : String) :
    (processOne db st ing).2.escalations = st.escalations := rfl

theorem processOne_cacheOk (db : Db) (st : PipeState) (ing : String)
    (hc : CacheOk st.cache) :
    CacheOk (processOne db st ing).2.cache :=
  verify_cacheOk db st.cache ing hc

theorem processOne_status_ne (db : Db) (st : PipeState) (ing : String) :
    (processOne db st ing).1.status ≠ "Not Found" := by
  by_cases h : (verify_ingredient_pubchem db st.cache ing).1.1 = "Not Found" <;>
    simp [processOne, h]

theorem processOne_status_mem (db : Db) (st : PipeState) (ing : String)
    (hc : CacheOk st.cache) :
    (processOne db st ing).1.status ∈ rowStatuses := by
  have hv := verify_status_mem db st.cache ing hc
  by_cases h : (verify_ingredient_pubchem db st.cache ing).1.1 = "Not Found"
  · simp [processOne, h, rowStatuses]
  · simp only [lookupStatuses, List.mem_cons, List.not_mem_nil, or_false] at hv
    rcases hv with h1 | h1 | h1 | h1
    · simp [processOne, h, h1, rowStatuses]
    · exact absurd h1 h
    · simp [processOne, h, h1, rowStatuses]
    · simp [processOne, h, h1, rowStatuses]

theorem assembleAux_length (db : Db) (st : PipeState) (names : List String) :
    (assembleAux db st names).1.length = names.length := by
  induction names generalizing st with
  | nil => rfl
  | cons n rest ih => simp [assembleAux, ih]

theorem assembleAux_escal (db : Db) (names : List String) :
    ∀ st : PipeState, (assembleAux db st names).2.escalations = st.escalations := by
  induction names with
  | nil => intro st; rfl
  | cons n rest ih =>
    intro st
    simp only [assembleAux]
    exact (ih (processOne db st n).2).trans (processOne_escalations db st n)

theorem assembleAux_row_ne (db : Db) (names : List String) :
    ∀ st : PipeState, ∀ row ∈ (assembleAux db st names).1,
      row.status ≠ "Not Found" := by
  induction names with
  | nil => intro st row hrow; simp [assembleAux] at hrow
  | cons n rest ih =>
    intro st row hrow
    simp only [assembleAux, List.mem_cons] at hrow
    rcases hrow with h1 | h2
    · subst h1; exact processOne_status_ne db st n
    · exact ih (processOne db st n).2 row h2

theorem extract_eq_filterMap (text : String) :
    extract text = (pySplit '\n' text).filterMap rowCandidate := by
  suffices h : ∀ (ls : List String) (acc : List String),
      ls.foldl
          (fun acc line =>
            match rowCandidate line with
            | some n => acc ++ [n]
            | none => acc)
          acc = acc ++ ls.filterMap rowCandidate by
    simpa [extract] using h (pySplit '\n' text) []
  intro ls
  induction ls with
  | nil => intro acc; simp
  | cons l t ih =>
    intro acc
    cases hl : rowCandidate l with
    | none => simp [List.foldl_cons, hl, ih, List.filterMap_cons]
    | some n => simp [List.foldl_cons, hl, ih, List.filterMap_cons]

/-- C1, counterexample: on a name whose direct verification yields
"Not Found", the loop performs zero escalations (so not exactly one)
and the emitted row carries the status "Complex/Blend*" and the chemist
note detail, not the status "Complex" with an escalation summary. -/
theorem notFound_escalation_cex :
    (verify_ingredient_pubchem dbEmptyRes startState.cache "Blend").1.1 = "Not Found" ∧
    (assembleAux dbEmptyRes startState ["Blend"]).2.escalations = [] ∧
    (assembleAux dbEmptyRes startState ["Blend"]).1 =
      [⟨"Blend", "Complex/Blend*", "See Chemist\x27s Note"⟩] := by
  decide

/-- C1 (amended): for every candidate whose direct verification yields
"Not Found", the Report Assembler performs no escalation at all; the
emitted row carries the literal status "Complex/Blend*" and the literal
detail string about the chemist note, and the escalation log is left
unchanged. -/
theorem notFound_row_replaced (db : Db) (st : PipeState) (name : String)
    (h : (verify_ingredient_pubchem db st.cache name).1.1 = "Not Found") :
    (processOne db st name).1 = ⟨name, "Complex/Blend*", "See Chemist\x27s Note"⟩ ∧
    (processOne db st name).2.escalations = st.escalations := by
  constructor
  · simp [processOne, h]
  · rfl

/-- C1 witness: the amended statement at a concrete run where the
database returns zero matches. -/
theorem notFound_row_replaced_witness :
    (processOne dbEmptyRes startState "Blend Y").1 =
      ⟨"Blend Y", "Complex/Blend*", "See Chemist\x27s Note"⟩ ∧
    (processOne dbEmptyRes startState "Blend Y").2.escalations =
      startState.escalations :=
  notFound_row_replaced dbEmptyRes startState "Blend Y" (by decide)

/-- C2, counterexample: on a text made only of a numbered and a
bulleted list line, the list-item strategy the spec describes captures
both names, but the parser in src/app.py extracts nothing: the fallback
strategy is absent from this version of the code. -/
theorem list_fallback_absent_cex :
    extract "1. Glycerin\n- Aqua (Water)" = [] ∧
    extractListSpec "1. Glycerin\n- Aqua (Water)" = ["Glycerin", "Aqua (Water)"] := by
  decide

/-- C2 (amended): the extractor implements only the table-row strategy;
there is no list-item fallback.  On any text none of whose lines starts
with a pipe after stripping, extraction returns the empty sequence. -/
theorem extract_table_only (text : String)
    (h : ∀ l ∈ pySplit '\n' text, strStarts (pyStrip l) "|" = false) :
    extract text = [] := by
  rw [extract_eq_filterMap]
  refine List.filterMap_eq_nil_iff.mpr ?_
  intro l hl
  simp [rowCandidate, h l hl]

/-- C2 witness: a two-line numbered list extracts to nothing. -/
theorem extract_table_only_witness :
    extract "1) Water\n2) Glycerin" = [] :=
  extract_table_only "1) Water\n2) Glycerin" (by decide)

/-- C3, counterexample: the candidate consisting of two asterisks
normalizes to the empty string, yet the loop emits a report row for it,
with status "Empty" and detail "-"; the claim that no row is emitted is
false on the code. -/
theorem empty_name_row_cex :
    normalize "**" = "" ∧
    (assembleAux dbWater startState ["**"]).1 = [⟨"**", "Empty", "-"⟩] := by
  decide

/-- C3 (amended): a candidate that normalizes to the empty string still
gets exactly one report row, with status "Empty" and detail "-"; no
external database call is made for it, and the result, like every
lookup result, is stored in the memo cache under the raw name. -/
theorem empty_name_row_empty (db : Db) (st : PipeState) (name : String)
    (hn : normalize name = "") (hm : cacheLookup name st.cache = none) :
    (processOne db st name).1 = ⟨name, "Empty", "-"⟩ ∧
    (processOne db st name).2.dbCalls = st.dbCalls ∧
    (processOne db st name).2.cache = (name, ("Empty", "-")) :: st.cache := by
  have hv : verify_ingredient_pubchem db st.cache name =
      (("Empty", "-"), (name, ("Empty", "-")) :: st.cache, []) := by
    simp [verify_ingredient_pubchem, hm, verify_uncached, hn]
  refine ⟨?_, ?_, ?_⟩ <;> simp [processOne, hv]

/-- C3 witness: the amended statement at a concrete decorated blank. -/
theorem empty_name_row_empty_witness :
    (processOne dbWater startState " ** ").1 = ⟨" ** ", "Empty", "-"⟩ ∧
    (processOne dbWater startState " ** ").2.dbCalls = startState.dbCalls ∧
    (processOne dbWater startState " ** ").2.cache =
      (" ** ", ("Empty", "-")) :: startState.cache :=
  empty_name_row_empty dbWater startState " ** " (by decide) (by decide)

/-- C4, counterexample: the claimed acceptance rule (at least 3
columns, header rejection by equality with "Phase", separator rejection
as a run of hyphens) disagrees with the code on three concrete lines:
a 3-column row is rejected by the code though the claim accepts it, a
row whose index-2 cell is "Phase" is accepted by the code though the
claim rejects it, and a cell of two hyphens is accepted by the code
though the claim rejects it. -/
theorem table_acceptance_cex :
    extract "|a|b|" = [] ∧ extractTableSpec "|a|b|" = ["b"] ∧
    extract "| x | Phase | 1 | f |" = ["Phase"] ∧
    extractTableSpec "| x | Phase | 1 | f |" = [] ∧
    extract "| a | -- | 1 | f |" = ["--"] ∧
    extractTableSpec "| a | -- | 1 | f |" = [] := by
  decide

/-- C4 (amended): for every line of the text that, after stripping,
starts and ends with a pipe, the extractor accepts it as a data row
whenever the pipe-split produces at least 5 stripped columns and the
segment at index 2 neither contains "ingredient name" case-insensitively
nor contains "---" as a substring; the candidate ingredient is that
index-2 segment. -/
theorem table_row_acceptance (text line : String)
    (hmem : line ∈ pySplit '\n' text)
    (h1 : strStarts (pyStrip line) "|" = true)
    (h2 : strEnds (pyStrip line) "|" = true)
    (h3 : 5 ≤ ((pySplit '|' line).map pyStrip).length)
    (h4 : strHas (pyLower (((pySplit '|' line).map pyStrip).getD 2 ""))
        "ingredient name" = false)
    (h5 : strHas (((pySplit '|' line).map pyStrip).getD 2 "") "---" = false) :
    ((pySplit '|' line).map pyStrip).getD 2 "" ∈ extract text := by
  have hc : rowCandidate line =
      some (((pySplit '|' line).map pyStrip).getD 2 "") := by
    simp only [rowCandidate, h1, h2, Bool.and_self, if_true]
    simp
    exact ⟨by simpa using h3, by simpa using h4, by simpa using h5⟩
  rw [extract_eq_filterMap]
  exact List.mem_filterMap.mpr ⟨line, hmem, hc⟩

/-- C4 witness: a concrete well-formed data row is accepted and its
index-2 segment extracted. -/
theorem table_row_acceptance_witness :
    ((pySplit '|' "| A | Water | 70 | Solvent |").map pyStrip).getD 2 ""
      ∈ extract "| A | Water | 70 | Solvent |" :=
  table_row_acceptance "| A | Water | 70 | Solvent |" "| A | Water | 70 | Solvent |"
    (by decide) (by decide) (by decide) (by decide) (by decide) (by decide)

/-- C5, counterexample: an assembled report contains a row with status
"Complex/Blend*", a string outside the closed set the claim names. -/
theorem report_status_cex :
    (⟨"Blend X", "Complex/Blend*", "See Chemist\x27s Note"⟩ : ReportRow)
        ∈ (assembleAux dbEmptyRes startState ["Blend X"]).1 ∧
    "Complex/Blend*" ∉ specStatuses := by
  decide

/-- C5 (amended): starting from a well-formed cache (in particular the
empty cache at process start), every row the loop assembles has a
status drawn from the closed set containing "Verified",
"Complex/Blend*", "API Error" and "Empty". -/
theorem report_status_closed (db : Db) (names : List String) :
    ∀ st : PipeState, CacheOk st.cache →
      ∀ row ∈ (assembleAux db st names).1, row.status ∈ rowStatuses := by
  induction names with
  | nil => intro st hc row hrow; simp [assembleAux] at hrow
  | cons n rest ih =>
    intro st hc row hrow
    simp only [assembleAux, List.mem_cons] at hrow
    rcases hrow with h1 | h2
    · subst h1; exact processOne_status_mem db st n hc
    · exact ih (processOne db st n).2 (processOne_cacheOk db st n hc) row h2

/-- C5 witness: a concrete verified row has a status in the closed
set. -/
theorem report_status_closed_witness :
    (⟨"Aqua", "Verified", "H2O"⟩ : ReportRow).status ∈ rowStatuses :=
  report_status_closed dbWater ["Aqua"] startState
    (fun p hp => absurd hp (List.not_mem_nil p))
    ⟨"Aqua", "Verified", "H2O"⟩ (by decide)

/-- C6, counterexample: the memo cache is keyed by the raw argument.
After resolving the decorated raw string, a verify call for the bare
string, which has the identical normalized name, misses the cache and
issues a fresh external query. -/
theorem cache_raw_key_cex :
    normalize " Aqua* " = normalize "Aqua" ∧
    (verify_ingredient_pubchem dbWater
        (verify_ingredient_pubchem dbWater [] " Aqua* ").2.1 "Aqua").2.2 =
      ["Aqua"] := by
  decide

/-- C6 (amended): the lookup cache is keyed by the exact raw ingredient
string: after any verify call, repeating the call with the identical
raw string returns the stored result, leaves the cache unchanged and
issues no external query.  Raw strings that differ in decoration are
distinct keys even when they normalize identically. -/
theorem repeat_verify_cached (db : Db) (cache : Cache) (name : String) :
    verify_ingredient_pubchem db (verify_ingredient_pubchem db cache name).2.1 name =
      ((verify_ingredient_pubchem db cache name).1,
        (verify_ingredient_pubchem db cache name).2.1, []) := by
  unfold verify_ingredient_pubchem
  cases h : cacheLookup name cache with
  | some r => simp [h]
  | none => simp [h, cacheLookup_cons_self]

/-- C7: whenever the secondary-model response lacks the required
ANALYSIS line or the required COMPONENTS line, the analyzer returns the
degenerate analysis with rationale "Analysis Failed" and an empty
component list; being a total function, it never raises. -/
theorem analyze_contract_violation (verify : String → String × String)
    (response : String)
    (h : (pySplit '\n' response).find? (fun l => strStarts l "ANALYSIS:") = none ∨
        (pySplit '\n' response).find? (fun l => strStarts l "COMPONENTS:") = none) :
    analyze_complex_ingredient verify response = ⟨"Analysis Failed", []⟩ := by
  rcases h with h | h
  · simp [analyze_complex_ingredient, h]
  · cases hx : (pySplit '\n' response).find? (fun l => strStarts l "ANALYSIS:") with
    | none => simp [analyze_complex_ingredient, h, hx]
    | some a => simp [analyze_complex_ingredient, h, hx]

/-- C7 witness: a free-form response without the two required lines
yields the degenerate analysis. -/
theorem analyze_contract_violation_witness :
    analyze_complex_ingredient (fun _ => ("Verified", "H2O"))
        "no structured lines" = ⟨"Analysis Failed", []⟩ :=
  analyze_contract_violation (fun _ => ("Verified", "H2O"))
    "no structured lines" (Or.inl (by decide))

/-- C8: when the external lookup for a name raises, the verification
helper returns the pair ("API Error", "-") instead of propagating the
exception, and the loop still emits exactly one row per candidate, so
one failing ingredient never aborts the rest of the pass. -/
theorem api_error_isolation (db : Db) (st : PipeState) (name : String)
    (names : List String)
    (hn : normalize name ≠ "")
    (hm : cacheLookup name st.cache = none)
    (hdb : db (normalize name) = .error ()) :
    (verify_ingredient_pubchem db st.cache name).1 = ("API Error", "-") ∧
    (assembleAux db st names).1.length = names.length := by
  constructor
  · simp [verify_ingredient_pubchem, hm, verify_uncached, hn, hdb]
  · exact assembleAux_length db st names

/-- C8 witness: a raising database yields the API-error row pair and a
two-candidate pass still produces two rows. -/
theorem api_error_isolation_witness :
    (verify_ingredient_pubchem dbDown startState.cache "Niacinamide").1 =
      ("API Error", "-") ∧
    (assembleAux dbDown startState ["Niacinamide", "Water"]).1.length = 2 :=
  ⟨(api_error_isolation dbDown startState "Niacinamide" ["Niacinamide", "Water"]
      (by decide) (by decide) rfl).1,
    (api_error_isolation dbDown startState "Niacinamide" ["Niacinamide", "Water"]
      (by decide) (by decide) rfl).2⟩

/-- C9: on a cache miss for a name with a non-empty normalization, a
lookup returning at least one match yields status "Verified" with the
molecular formula of the first match as detail, and a lookup returning
the empty list yields "Not Found" with detail "-". -/
theorem verify_direct_results (db : Db) (cache : Cache) (name : String)
    (hm : cacheLookup name cache = none)
    (hn : normalize name ≠ "") :
    (∀ (c : Compound) (rest : List Compound),
        db (normalize name) = .ok (c :: rest) →
        (verify_ingredient_pubchem db cache name).1 =
          ("Verified", c.molecular_formula)) ∧
    (db (normalize name) = .ok [] →
        (verify_ingredient_pubchem db cache name).1 = ("Not Found", "-")) := by
  constructor
  · intro c rest hdb
    simp [verify_ingredient_pubchem, hm, verify_uncached, hn, hdb]
  · intro hdb
    simp [verify_ingredient_pubchem, hm, verify_uncached, hn, hdb]

/-- C9 witness: a one-match database verifies a name with the formula
of the first match, and an empty-result database yields "Not Found". -/
theorem verify_direct_results_witness :
    (verify_ingredient_pubchem dbWater [] "Glycerin").1 = ("Verified", "H2O") ∧
    (verify_ingredient_pubchem dbEmptyRes [] "Glycerin").1 = ("Not Found", "-") :=
  ⟨(verify_direct_results dbWater [] "Glycerin" (by decide) (by decide)).1
      ⟨"H2O"⟩ [] rfl,
    (verify_direct_results dbEmptyRes [] "Glycerin" (by decide) (by decide)).2 rfl⟩

/-- C10: no assembled row ever carries the status "Not Found"; the
escalation log is unchanged by the loop (the loop body contains no call
to the secondary model); and whenever direct verification yields
"Not Found" the emitted row has status "Complex/Blend*" and the chemist
note detail. -/
theorem no_not_found_rows (db : Db) (st : PipeState) (names : List String) :
    (∀ row ∈ (assembleAux db st names).1, row.status ≠ "Not Found") ∧
    (assembleAux db st names).2.escalations = st.escalations ∧
    (∀ name, (verify_ingredient_pubchem db st.cache name).1.1 = "Not Found" →
        (processOne db st name).1 =
          ⟨name, "Complex/Blend*", "See Chemist\x27s Note"⟩) := by
  refine ⟨assembleAux_row_ne db names st, assembleAux_escal db names st, ?_⟩
  intro name h
  simp [processOne, h]

/-- C10 witness: the invariants at a concrete not-found run. -/
theorem no_not_found_rows_witness :
    (⟨"Q10", "Complex/Blend*", "See Chemist\x27s Note"⟩ : ReportRow).status ≠
      "Not Found" ∧
    (assembleAux dbEmptyRes startState ["Q10"]).2.escalations = [] ∧
    (processOne dbEmptyRes startState "Q10").1 =
      ⟨"Q10", "Complex/Blend*", "See Chemist\x27s Note"⟩ :=
  ⟨(no_not_found_rows dbEmptyRes startState ["Q10"]).1 _ (by decide),
    ((no_not_found_rows dbEmptyRes startState ["Q10"]).2.1).trans rfl,
    (no_not_found_rows dbEmptyRes startState ["Q10"]).2.2 "Q10" (by decide)⟩

end FormulationAgent
